import Mathlib

/-!
# Verification of the learn-go authentication service

Shallow embedding of the authentication core of the repository
`PakornBank/learn-go`: the auth service (`internal/service/auth_service.go`),
the JWT middleware (`internal/middleware/auth_middleware.go`), the user model
(`internal/model/user.go`), the HTTP handlers (`internal/handler/auth_handler.go`)
and configuration loading (`internal/config/config.go`).

External collaborators (the `golang-jwt/jwt/v4` library, `x/crypto/bcrypt`,
the gorm-backed repository, gin's context) are modelled symbolically, each
definition carrying a comment naming the Go function it embeds.
-/

/-- A JSON value as it appears in JWT map claims and in gin JSON bodies.
Only strings and integers occur in this program's claims and outputs. -/
inductive JsonVal where
  | str (s : String)
  | num (n : Int)
  deriving DecidableEq, Repr

/-- JWT signing algorithms relevant to this program: the HMAC family
(`jwt.SigningMethodHS256/384/512`) and the unsigned method
(`jwt.SigningMethodNone`, header alg "none"). -/
inductive Alg where
  | hs256
  | hs384
  | hs512
  | noAlg
  deriving DecidableEq, Repr

/-- `jwt.MapClaims`, restricted to the keys this program reads and writes:
`user_id`, `email` (arbitrary JSON values) and `exp` (epoch seconds).
A missing key is `none`. -/
structure MapClaims where
  user_id : Option JsonVal
  email : Option JsonVal
  exp : Option Int
  deriving DecidableEq, Repr

/-- Symbolic signature value of a token.  `hmac alg key claims` is the MAC
computed by the given HMAC algorithm with the given key over the serialized
claims; `emptySig` is the empty signature the "none" method produces.
Symbolic model: two MACs are equal exactly when algorithm, key and signed
payload coincide (no collisions). -/
inductive Sig where
  | hmac (alg : Alg) (key : String) (claims : MapClaims)
  | emptySig
  deriving DecidableEq, Repr

/-- A decoded JWT in compact serialization: header algorithm, claims,
signature. -/
structure SignedToken where
  alg : Alg
  claims : MapClaims
  sig : Sig
  deriving DecidableEq, Repr

/-- `token.SignedString(key)` for a token built by `jwt.NewWithClaims(method,
claims)` with an HMAC method: signs the claims with the key. -/
def signedString (alg : Alg) (claims : MapClaims) (key : String) : SignedToken :=
  ⟨alg, claims, .hmac alg key claims⟩

/-- Signature verification performed by `jwt.Parse` once the keyfunc returned
`[]byte(key)` (as the middleware's keyfunc does for every token):
`SigningMethodHMAC.Verify` succeeds exactly when the signature is the MAC of
the declared algorithm with that key over the claims;
`SigningMethodNone.Verify` always fails for a `[]byte` key
(`NoneSignatureTypeDisallowedError`). -/
def verifySig (alg : Alg) (key : String) (claims : MapClaims) (sig : Sig) : Bool :=
  match alg with
  | .noAlg => false
  | _ => sig == .hmac alg key claims

/-- `jwt.MapClaims.Valid` as called by `jwt/v4.Parse`: the only registered
claim this program sets is `exp`; the claims are valid when `exp` is absent
or still in the future (`now < exp`). -/
def claimsValid (now : Int) (c : MapClaims) : Bool :=
  match c.exp with
  | some e => decide (now < e)
  | none => true

/-- The `*jwt.Token` result of `jwt.Parse` that the middleware inspects:
its claims and its `Valid` flag. -/
structure ParsedToken where
  claims : MapClaims
  valid : Bool
  deriving DecidableEq, Repr

/-- `jwt.Parse(tokenString, keyfunc)` where the keyfunc returns
`[]byte(key)` unconditionally (middleware lines 53-55).  `decode` is the
base64/JSON compact decoding (external library code): `none` means the string
is not parseable as a JWT, in which case `Parse` returns a non-nil error.
Otherwise the token is valid exactly when its claims validate (expiry) and
its signature verifies under the key. -/
def jwtParse (now : Int) (decode : String → Option SignedToken)
    (tokenString : String) (key : String) : Option ParsedToken :=
  match decode tokenString with
  | none => none
  | some t => some ⟨t.claims, claimsValid now t.claims && verifySig t.alg key t.claims t.sig⟩

/-- The space character, separator of `strings.Split(authHeader, " ")`. -/
def spaceChar : Char := Char.ofNat 32

/-- Go's `strings.Split(s, " ")`: split around each space, keeping empty
fields; the split of the empty string is `[""]`. -/
def goSplit (s : String) : List String :=
  (s.data.splitOn spaceChar).map List.asString

/-- Outcome of running the middleware on one request: the keys it `c.Set`
into the gin context, the JSON error response it wrote (with HTTP status)
if it aborted, and whether it called `c.Next()` (i.e. let the downstream
handler run). -/
structure MwOut where
  ctxKeys : List (String × JsonVal)
  response : Option (Nat × String)
  nextCalled : Bool
  deriving DecidableEq, Repr

/-- `http.StatusUnauthorized`. -/
def statusUnauthorized : Nat := 401

/-- `c.JSON(http.StatusUnauthorized, gin.H{"error": msg}); c.Abort()`:
no context keys set, 401 response, downstream handler not run. -/
def abortWith (msg : String) : MwOut :=
  ⟨[], some (statusUnauthorized, msg), false⟩

/-- The token-verification half of `middleware.AuthMiddleware`
(auth_middleware.go lines 53-80), applied to the extracted token string:
`jwt.Parse` with a keyfunc returning the secret, the
`err != nil || !token.Valid` check, the `MapClaims` type assertion (always
succeeds for tokens produced by `jwt.Parse` with default options), the
presence/non-emptiness check of the `user_id` and `email` claims, and
finally `c.Set` of both claims followed by `c.Next()`. -/
def tokenGate (jwtSecret : String) (decode : String → Option SignedToken)
    (now : Int) (tokenString : String) : MwOut :=
  match jwtParse now decode tokenString jwtSecret with
  | none => abortWith "invalid token"
  | some token =>
    if token.valid then
      match token.claims.user_id, token.claims.email with
      | some userID, some email =>
        if userID = JsonVal.str "" ∨ email = JsonVal.str "" then
          abortWith "invalid token claims"
        else ⟨[("user_id", userID), ("email", email)], none, true⟩
      | _, _ => abortWith "invalid token claims"
    else abortWith "invalid token"

/-- `middleware.AuthMiddleware(jwtSecret)` applied to a request whose
`Authorization` header has value `authHeader` (gin's `c.GetHeader` returns
the empty string when the header is absent), at time `now`.
Mirrors `auth_middleware.go` lines 38-81: header presence check, exact
`Bearer <token>` two-part shape via `strings.Split`, then the token gate. -/
def authMiddleware (jwtSecret : String) (decode : String → Option SignedToken)
    (now : Int) (authHeader : String) : MwOut :=
  if authHeader = "" then abortWith "authorization header required"
  else
    match goSplit authHeader with
    | ["Bearer", tokenString] => tokenGate jwtSecret decode now tokenString
    | _ => abortWith "invalid authorization header format"

/-- The salt/cost preamble of a bcrypt hash string (`$2a$` + default cost).
Symbolic stand-in for the salted preamble of the bcrypt output. -/
def bcryptTag : String := "$2a$10$"

/-- Symbolic, deterministic model of `bcrypt.GenerateFromPassword(password,
bcrypt.DefaultCost)`: a self-contained hash string from which the password
cannot collide with another password's hash (bcrypt verification is
collision-free in the symbolic model). -/
def generateFromPassword (password : String) : String :=
  bcryptTag ++ password

/-- Symbolic model of `bcrypt.CompareHashAndPassword(hash, password)`:
`true` means nil error (match); `false` means mismatch or malformed hash,
both of which are a non-nil error in Go. -/
def compareHashAndPassword (hash password : String) : Bool :=
  hash == generateFromPassword password

/-- `model.User` (user.go lines 20-27).  `id` is the string rendering of the
`uuid.UUID` primary key; timestamps are epoch numbers. -/
structure User where
  id : String
  email : String
  passwordHash : String
  fullName : String
  createdAt : Int
  updatedAt : Int
  deriving DecidableEq, Repr

/-- Errors returned by the gorm-backed repository: `gorm.ErrRecordNotFound`
or any other database error. -/
inductive StorageError where
  | recordNotFound
  | other (msg : String)
  deriving DecidableEq, Repr

/-- `err.Error()` for a storage error. -/
def StorageError.message : StorageError → String
  | .recordNotFound => "record not found"
  | .other m => m

/-- `service.RegisterInput` (JSON-bound request body). -/
structure RegisterInput where
  email : String
  password : String
  fullName : String
  deriving DecidableEq, Repr

/-- `service.LoginInput` (JSON-bound request body). -/
structure LoginInput where
  email : String
  password : String
  deriving DecidableEq, Repr

/-- `AuthService.Register` (auth_service.go lines 39-61).  The repository's
`FindByEmail` returns either a user or an error (the gorm repository never
returns a nil user with a nil error); the service DISCARDS the lookup error
(`existingUser, _ :=`) and proceeds whenever no user came back.  `create`
models `userRepo.Create`, which lets the store fill in the server-assigned
id and timestamps of the user it is given and mutates the passed user
accordingly; its result is that stored user. -/
def register (findByEmail : String → Except StorageError User)
    (create : User → Except StorageError User)
    (input : RegisterInput) : Except String User :=
  match findByEmail input.email with
  | .ok _ => .error "email already registered"
  | .error _ =>
    let hashedPassword := generateFromPassword input.password
    let user : User :=
      { id := "", email := input.email, passwordHash := hashedPassword,
        fullName := input.fullName, createdAt := 0, updatedAt := 0 }
    match create user with
    | .error e => .error e.message
    | .ok stored => .ok stored

/-- `AuthService.generateToken` (auth_service.go lines 76-85): claims
`{user_id: user.ID.String(), email: user.Email, exp: now + tokenExpiry}`
signed HS256 with the configured secret.  Times are in epoch seconds
(`time.Now().Add(s.tokenExpiry).Unix()`), so `tokenExpiry` here is the
configured expiry duration in seconds. -/
def generateToken (jwtSecret : String) (tokenExpiry : Int) (now : Int)
    (user : User) : SignedToken :=
  signedString .hs256
    ⟨some (.str user.id), some (.str user.email), some (now + tokenExpiry)⟩
    jwtSecret

/-- The signing algorithm the service is configured with:
`jwt.SigningMethodHS256` (auth_service.go line 83). -/
def configuredAlg : Alg := .hs256

/-- `AuthService.Login` (auth_service.go lines 63-74): lookup by email, any
lookup error becomes the generic "invalid credentials" error; then bcrypt
comparison, whose failure becomes the same generic error; on success the
signed token. -/
def login (findByEmail : String → Except StorageError User)
    (jwtSecret : String) (tokenExpiry : Int) (now : Int)
    (input : LoginInput) : Except String SignedToken :=
  match findByEmail input.email with
  | .error _ => .error "invalid credentials"
  | .ok user =>
    if compareHashAndPassword user.passwordHash input.password then
      .ok (generateToken jwtSecret tokenExpiry now user)
    else .error "invalid credentials"

/-- `AuthService.GetUserByID`: pass-through to the repository. -/
def getUserById (findById : String → Except StorageError User)
    (id : String) : Except StorageError User :=
  findById id

/-- JSON serialization of `model.User` per its struct tags (user.go lines
20-27): `id`, `email`, `full_name`, `created_at`, `updated_at`; the
`PasswordHash` field carries the tag `json:"-"` and is omitted entirely. -/
def userToJson (u : User) : List (String × JsonVal) :=
  [("id", .str u.id), ("email", .str u.email), ("full_name", .str u.fullName),
   ("created_at", .num u.createdAt), ("updated_at", .num u.updatedAt)]

/-- An HTTP response written by a handler: status code and JSON object body. -/
structure HttpResponse where
  status : Nat
  body : List (String × JsonVal)
  deriving DecidableEq, Repr

/-- `AuthHandler.Register` (auth_handler.go) after successful JSON binding:
service error becomes 400 with an error body, success becomes 201 with the
serialized user. -/
def registerHandler (findByEmail : String → Except StorageError User)
    (create : User → Except StorageError User)
    (input : RegisterInput) : HttpResponse :=
  match register findByEmail create input with
  | .error msg => ⟨400, [("error", .str msg)]⟩
  | .ok user => ⟨201, userToJson user⟩

/-- `AuthHandler.GetProfile` (auth_handler.go lines 57-71): reads the
`user_id` context key set by the middleware; absent key gives 401; the
`userId.(string)` type assertion panics on a non-string value (gin's
recovery middleware then writes an empty 500); otherwise the service lookup
error gives 404 and success gives 200 with the serialized user. -/
def getProfile (findById : String → Except StorageError User)
    (ctxUserId : Option JsonVal) : HttpResponse :=
  match ctxUserId with
  | none => ⟨401, [("error", .str "unauthorized")]⟩
  | some (.num _) => ⟨500, []⟩
  | some (.str s) =>
    match getUserById findById s with
    | .error e => ⟨404, [("error", .str e.message)]⟩
    | .ok user => ⟨200, userToJson user⟩

/-- `config.Config` (config.go lines 15-24).  `tokenExpiryDur` is a Go
`time.Duration`, i.e. nanoseconds. -/
structure Config where
  dbHost : String
  dbUser : String
  dbPassword : String
  dbName : String
  dbPort : String
  serverPort : String
  jwtSecret : String
  tokenExpiryDur : Int
  deriving DecidableEq, Repr

/-- `time.Hour` in nanoseconds. -/
def goHour : Int := 3600 * 1000000000

/-- `config.getEnv(key, defaultValue)` over an environment (the process
environment after godotenv merged any `.env` file): `os.LookupEnv`, with
the default when the variable is not present. -/
def getEnv (env : String → Option String) (key defaultValue : String) : String :=
  match env key with
  | some value => value
  | none => defaultValue

/-- `config.LoadConfig` (config.go lines 44-65), over the effective
environment: builds the config with defaults and a fixed 24-hour token
expiry, then rejects the shipped placeholder JWT secret. -/
def loadConfig (env : String → Option String) : Except String Config :=
  let config : Config :=
    { dbHost := getEnv env "DB_HOST" "localhost",
      dbUser := getEnv env "DB_USER" "postgres",
      dbPassword := getEnv env "DB_PASSWORD" "",
      dbName := getEnv env "DB_NAME" "go_auth_db",
      dbPort := getEnv env "DB_PORT" "5432",
      serverPort := getEnv env "SERVER_PORT" "8080",
      jwtSecret := getEnv env "JWT_SECRET" "your-secret-key",
      tokenExpiryDur := 24 * goHour }
  if config.jwtSecret = "your-secret-key" then
    .error "jwt secret must be set in environment"
  else .ok config

/-! ## Helper lemmas -/

/-- On a non-empty header that splits into exactly `Bearer` and a token
string, the middleware is the token gate on that token string. -/
theorem authMiddleware_bearer (jwtSecret : String)
    (decode : String → Option SignedToken) (now : Int)
    (authHeader tokenString : String) (hne : authHeader ≠ "")
    (hsplit : goSplit authHeader = ["Bearer", tokenString]) :
    authMiddleware jwtSecret decode now authHeader =
      tokenGate jwtSecret decode now tokenString := by
  unfold authMiddleware
  rw [if_neg hne, hsplit]
  rfl

/-- A MAC under a key other than the verification key never verifies. -/
theorem verifySig_ne_key (alg : Alg) (key : String) (claims : MapClaims)
    (a : Alg) (s : String) (c : MapClaims) (hss : s ≠ key) :
    verifySig alg key claims (.hmac a s c) = false := by
  cases alg <;> simp [verifySig] <;> intro h1 h2 h3 <;> exact hss h2

/-- The "none" algorithm never verifies when the keyfunc supplied a byte
key. -/
theorem verifySig_noAlg (key : String) (claims : MapClaims) (sig : Sig) :
    verifySig .noAlg key claims sig = false := rfl

/-- The symbolic bcrypt hash of a password is never the plaintext itself. -/
theorem generateFromPassword_ne_plain (p : String) : generateFromPassword p ≠ p := by
  intro h
  have h2 := congrArg String.length h
  rw [generateFromPassword, String.length_append] at h2
  have h3 : bcryptTag.length = 7 := rfl
  rw [h3] at h2
  omega

/-- The symbolic bcrypt hash determines the password: hashes of distinct
passwords differ. -/
theorem generateFromPassword_inj (p q : String)
    (h : generateFromPassword p = generateFromPassword q) : p = q := by
  rw [generateFromPassword, generateFromPassword] at h
  have h2 := congrArg String.data h
  simp only [String.data_append] at h2
  exact String.ext (List.append_cancel_left h2)

/-! ## Claims -/

/-- C1: for every registered email given a wrong password, and for every
unregistered email (or any lookup failure), `Login` fails with the very same
error value, the generic `"invalid credentials"` error, so the caller cannot
tell from the result whether the email exists (auth_service.go lines 63-74). -/
theorem login_uniform_invalid_credentials
    (findByEmail : String → Except StorageError User)
    (jwtSecret : String) (tokenExpiry now : Int) (input : LoginInput)
    (h : (∃ e, findByEmail input.email = .error e) ∨
      (∃ u, findByEmail input.email = .ok u ∧
        compareHashAndPassword u.passwordHash input.password = false)) :
    login findByEmail jwtSecret tokenExpiry now input
      = .error "invalid credentials" := by
  unfold login
  rcases h with ⟨e, he⟩ | ⟨u, hu, hcmp⟩
  · rw [he]
  · rw [hu]
    simp [hcmp]

/-- C1 witness: a concrete unregistered email fails with the generic error. -/
theorem login_uniform_invalid_credentials_witness :
    login (fun _ => .error .recordNotFound) "secret" 86400 0 ⟨"a@x.com", "pw"⟩
      = .error "invalid credentials" :=
  login_uniform_invalid_credentials _ "secret" 86400 0 _
    (Or.inl ⟨.recordNotFound, rfl⟩)

/-- C2: `Register` discards the error of the duplicate-check lookup
(`existingUser, _ := s.userRepo.FindByEmail(...)`, auth_service.go line 40):
at a repository whose lookup fails with a storage error other than
"not found", registration proceeds to hash and create instead of returning
the lookup error to the caller. -/
theorem register_ignores_lookup_error :
    register (fun _ => .error (.other "connection refused"))
      (fun u => .ok { u with id := "id-1" })
      ⟨"a@x.com", "password1", "A"⟩
      = .ok ⟨"id-1", "a@x.com", generateFromPassword "password1", "A", 0, 0⟩ := rfl

/-- C5: a token whose `exp` claim lies in the past at verification time is
rejected by the middleware with 401 "invalid token", whatever its signature
(in particular even a signature valid under the configured secret). -/
theorem expired_token_rejected (jwtSecret : String)
    (decode : String → Option SignedToken) (now : Int)
    (authHeader tokenString : String) (tok : SignedToken) (e : Int)
    (hne : authHeader ≠ "")
    (hsplit : goSplit authHeader = ["Bearer", tokenString])
    (hdec : decode tokenString = some tok)
    (hexp : tok.claims.exp = some e) (hpast : e < now) :
    authMiddleware jwtSecret decode now authHeader = abortWith "invalid token" := by
  rw [authMiddleware_bearer jwtSecret decode now authHeader tokenString hne hsplit]
  have hcv : claimsValid now tok.claims = false := by
    rw [claimsValid, hexp]
    simp
    omega
  unfold tokenGate jwtParse
  rw [hdec]
  simp [hcv]

/-- C5 witness: a token with `exp = 5`, validly signed with the configured
secret, is rejected at time `now = 10`. -/
theorem expired_token_rejected_witness :
    authMiddleware "secret"
      (fun _ => some (signedString .hs256
        ⟨some (.str "u-1"), some (.str "a@x.com"), some 5⟩ "secret"))
      10 "Bearer x"
      = abortWith "invalid token" :=
  expired_token_rejected "secret" _ 10 "Bearer x" "x"
    (signedString .hs256 ⟨some (.str "u-1"), some (.str "a@x.com"), some 5⟩ "secret")
    5 (by decide) (by decide) rfl rfl (by decide)

/-- C3 counterexample: the middleware's keyfunc returns the configured
secret without checking the token's signing method (auth_middleware.go
lines 53-55), so a token declaring HS384 — an algorithm different from the
configured HS256 — but correctly HMAC-SHA384-signed with the configured
secret is ACCEPTED: the request is not refused, the claims are attached and
the downstream handler runs. -/
theorem authMiddleware_accepts_foreign_alg :
    Alg.hs384 ≠ configuredAlg ∧
    authMiddleware "secret"
      (fun t => if t = "h.c.s" then
          some (signedString .hs384
            ⟨some (.str "u-1"), some (.str "a@x.com"), some 100⟩ "secret")
        else none)
      0 "Bearer h.c.s"
      = ⟨[("user_id", .str "u-1"), ("email", .str "a@x.com")], none, true⟩ := by
  decide

/-- C3 amended: a token with declared algorithm "none", and a token whose
signature is a MAC under a secret different from the configured one, are
rejected with 401 "invalid token"; tokens of another HMAC algorithm signed
with the configured secret are, however, accepted (see the counterexample). -/
theorem authMiddleware_rejects_none_and_wrong_secret (jwtSecret : String)
    (decode : String → Option SignedToken) (now : Int)
    (authHeader tokenString : String) (tok : SignedToken)
    (hne : authHeader ≠ "")
    (hsplit : goSplit authHeader = ["Bearer", tokenString])
    (hdec : decode tokenString = some tok)
    (hbad : tok.alg = .noAlg ∨
      ∃ a s c, tok.sig = .hmac a s c ∧ s ≠ jwtSecret) :
    authMiddleware jwtSecret decode now authHeader = abortWith "invalid token" := by
  rw [authMiddleware_bearer jwtSecret decode now authHeader tokenString hne hsplit]
  have hv : verifySig tok.alg jwtSecret tok.claims tok.sig = false := by
    rcases hbad with h | ⟨a, s, c, hs, hss⟩
    · rw [h]
      exact verifySig_noAlg jwtSecret tok.claims tok.sig
    · rw [hs]
      exact verifySig_ne_key tok.alg jwtSecret tok.claims a s c hss
  unfold tokenGate jwtParse
  rw [hdec]
  simp [hv]

/-- C3 amended witness: a "none"-algorithm token and a token signed with the
wrong secret are both rejected. -/
theorem authMiddleware_rejects_none_and_wrong_secret_witness :
    authMiddleware "secret"
      (fun _ => some ⟨.noAlg, ⟨some (.str "u"), some (.str "e"), some 100⟩, .emptySig⟩)
      0 "Bearer x" = abortWith "invalid token" ∧
    authMiddleware "secret"
      (fun _ => some (signedString .hs256
        ⟨some (.str "u"), some (.str "e"), some 100⟩ "other-secret"))
      0 "Bearer x" = abortWith "invalid token" :=
  ⟨authMiddleware_rejects_none_and_wrong_secret "secret" _ 0 "Bearer x" "x" _
      (by decide) (by decide) rfl (Or.inl rfl),
    authMiddleware_rejects_none_and_wrong_secret "secret" _ 0 "Bearer x" "x" _
      (by decide) (by decide) rfl
      (Or.inr ⟨.hs256, "other-secret", _, rfl, by decide⟩)⟩

/-- The user, decoder and header used to witness the token round trip. -/
def rtUser : User := ⟨"u-1", "a@x.com", "h", "A", 0, 0⟩

/-- Witness decoder: decodes exactly the witness token string to the token
issued for `rtUser`. -/
def rtDecode : String → Option SignedToken :=
  fun t => if t = "x" then some (generateToken "secret" 86400 0 rtUser) else none

/-- C4: round trip — parsing-and-verifying a token issued by
`generateToken` with the same secret, before its expiry, succeeds and
yields exactly the `user_id` and `email` claims put in at issuance; and
(when those values are non-empty, as they always are for a persisted user:
a rendered UUID and a validated email) the middleware attaches exactly
those values to the request context and lets the handler run. -/
theorem token_roundtrip (jwtSecret : String) (tokenExpiry now now2 : Int)
    (user : User) (decode : String → Option SignedToken)
    (authHeader tokenString : String)
    (hdec : decode tokenString
      = some (generateToken jwtSecret tokenExpiry now user))
    (hexp : now2 < now + tokenExpiry)
    (hne : authHeader ≠ "")
    (hsplit : goSplit authHeader = ["Bearer", tokenString]) :
    jwtParse now2 decode tokenString jwtSecret =
      some ⟨⟨some (.str user.id), some (.str user.email),
        some (now + tokenExpiry)⟩, true⟩ ∧
    (user.id ≠ "" → user.email ≠ "" →
      authMiddleware jwtSecret decode now2 authHeader =
        ⟨[("user_id", .str user.id), ("email", .str user.email)], none, true⟩) := by
  have hparse : jwtParse now2 decode tokenString jwtSecret =
      some ⟨⟨some (.str user.id), some (.str user.email),
        some (now + tokenExpiry)⟩, true⟩ := by
    unfold jwtParse
    rw [hdec]
    unfold generateToken signedString
    simp [claimsValid, verifySig, hexp]
  refine ⟨hparse, fun hid hemail => ?_⟩
  rw [authMiddleware_bearer jwtSecret decode now2 authHeader tokenString hne hsplit]
  unfold tokenGate
  rw [hparse]
  simp [hid, hemail]

/-- C4 witness: a concrete issued token round-trips through the middleware
and the original claim values are attached to the context. -/
theorem token_roundtrip_witness :
    jwtParse 10 rtDecode "x" "secret" =
      some ⟨⟨some (.str "u-1"), some (.str "a@x.com"), some 86400⟩, true⟩ ∧
    authMiddleware "secret" rtDecode 10 "Bearer x" =
      ⟨[("user_id", .str "u-1"), ("email", .str "a@x.com")], none, true⟩ := by
  have h := token_roundtrip "secret" 86400 0 10 rtUser rtDecode "Bearer x" "x"
    rfl (by decide) (by decide) (by decide)
  exact ⟨h.1, h.2 (by decide) (by decide)⟩

/-- C6: for every valid input (password of at least 8 characters, non-empty
full name) at a store with no user of that email (the lookup fails, e.g.
with "record not found") whose create operation stores the constructed user,
assigning it a non-empty id and preserving the other fields (the
collaborator contract of the gorm store), `Register` succeeds and the
returned user has that non-empty id, the input email and full name, and a
password hash that differs from the plaintext password and from the hash of
every other password. -/
theorem register_success (findByEmail : String → Except StorageError User)
    (create : User → Except StorageError User)
    (input : RegisterInput) (stored : User)
    (_hvalid : 8 ≤ input.password.length ∧ input.fullName ≠ "")
    (hnotfound : ∃ e, findByEmail input.email = .error e)
    (hcreate : create ⟨"", input.email, generateFromPassword input.password,
      input.fullName, 0, 0⟩ = .ok stored)
    (hstore : stored.id ≠ "" ∧ stored.email = input.email ∧
      stored.passwordHash = generateFromPassword input.password ∧
      stored.fullName = input.fullName) :
    register findByEmail create input = .ok stored ∧
    stored.id ≠ "" ∧ stored.email = input.email ∧
    stored.fullName = input.fullName ∧
    stored.passwordHash ≠ input.password ∧
    ∀ p2, p2 ≠ input.password →
      stored.passwordHash ≠ generateFromPassword p2 := by
  obtain ⟨e, he⟩ := hnotfound
  obtain ⟨hid, hemail, hhash, hname⟩ := hstore
  refine ⟨?_, hid, hemail, hname, ?_, ?_⟩
  · unfold register
    rw [he]
    simp only []
    rw [hcreate]
  · rw [hhash]
    exact generateFromPassword_ne_plain input.password
  · intro p2 hp2 hcontra
    rw [hhash] at hcontra
    exact hp2 (generateFromPassword_inj p2 input.password hcontra.symm)

/-- C6 witness: a concrete valid registration at an empty store. -/
theorem register_success_witness :
    register (fun _ => .error .recordNotFound)
      (fun u => .ok { u with id := "id-1" })
      ⟨"a@x.com", "password1", "A"⟩
      = .ok ⟨"id-1", "a@x.com", generateFromPassword "password1", "A", 0, 0⟩ ∧
    generateFromPassword "password1" ≠ "password1" ∧
    generateFromPassword "password1" ≠ generateFromPassword "password2" := by
  have h := register_success (fun _ => .error .recordNotFound)
    (fun u => .ok { u with id := "id-1" })
    ⟨"a@x.com", "password1", "A"⟩
    ⟨"id-1", "a@x.com", generateFromPassword "password1", "A", 0, 0⟩
    (by constructor <;> decide) ⟨.recordNotFound, rfl⟩ rfl
    ⟨by decide, rfl, rfl, rfl⟩
  exact ⟨h.1, h.2.2.2.2.1, h.2.2.2.2.2 "password2" (by decide)⟩

/-- Every run of the token gate either aborts with "invalid token", aborts
with "invalid token claims", or passes, and a pass certifies a decoded,
unexpired, correctly signed token with present, non-empty `user_id` and
`email` claims, exactly those attached to the context. -/
theorem tokenGate_classify (jwtSecret : String)
    (decode : String → Option SignedToken) (now : Int) (t : String) :
    tokenGate jwtSecret decode now t = abortWith "invalid token" ∨
    tokenGate jwtSecret decode now t = abortWith "invalid token claims" ∨
    ∃ tok uid em, decode t = some tok ∧
      claimsValid now tok.claims = true ∧
      verifySig tok.alg jwtSecret tok.claims tok.sig = true ∧
      tok.claims.user_id = some uid ∧ tok.claims.email = some em ∧
      ¬ uid = JsonVal.str "" ∧ ¬ em = JsonVal.str "" ∧
      tokenGate jwtSecret decode now t
        = ⟨[("user_id", uid), ("email", em)], none, true⟩ := by
  cases hdec : decode t with
  | none =>
    left
    unfold tokenGate jwtParse
    rw [hdec]
  | some tok =>
    have hgate : tokenGate jwtSecret decode now t =
        (if (claimsValid now tok.claims
            && verifySig tok.alg jwtSecret tok.claims tok.sig) = true then
          match tok.claims.user_id, tok.claims.email with
          | some userID, some email =>
            if userID = JsonVal.str "" ∨ email = JsonVal.str "" then
              abortWith "invalid token claims"
            else ⟨[("user_id", userID), ("email", email)], none, true⟩
          | _, _ => abortWith "invalid token claims"
        else abortWith "invalid token") := by
      unfold tokenGate jwtParse
      rw [hdec]
    rw [hgate]
    cases hb : (claimsValid now tok.claims
        && verifySig tok.alg jwtSecret tok.claims tok.sig) with
    | false => left; rw [if_neg (by simp)]
    | true =>
      have hcv : claimsValid now tok.claims = true := by
        cases hx : claimsValid now tok.claims
        · rw [hx, Bool.false_and] at hb
          exact absurd hb (by decide)
        · rfl
      have hvs : verifySig tok.alg jwtSecret tok.claims tok.sig = true := by
        cases hx : verifySig tok.alg jwtSecret tok.claims tok.sig
        · rw [hx, Bool.and_false] at hb
          exact absurd hb (by decide)
        · rfl
      rw [if_pos rfl]
      cases huid : tok.claims.user_id with
      | none => right; left; rfl
      | some uid =>
        cases hem : tok.claims.email with
        | none => right; left; rfl
        | some em =>
          by_cases hss : uid = JsonVal.str "" ∨ em = JsonVal.str ""
          · right; left
            show (if uid = JsonVal.str "" ∨ em = JsonVal.str "" then
                abortWith "invalid token claims"
              else ⟨[("user_id", uid), ("email", em)], none, true⟩)
              = abortWith "invalid token claims"
            rw [if_pos hss]
          · right; right
            refine ⟨tok, uid, em, rfl, hcv, hvs, huid, hem,
              (not_or.mp hss).1, (not_or.mp hss).2, ?_⟩
            show (if uid = JsonVal.str "" ∨ em = JsonVal.str "" then
                abortWith "invalid token claims"
              else ⟨[("user_id", uid), ("email", em)], none, true⟩)
              = ⟨[("user_id", uid), ("email", em)], none, true⟩
            rw [if_neg hss]

/-- The token gate never emits the two header-format error messages. -/
theorem tokenGate_ne_abort (jwtSecret : String)
    (decode : String → Option SignedToken) (now : Int) (t : String)
    (msg : String) (h1 : msg ≠ "invalid token")
    (h2 : msg ≠ "invalid token claims") :
    tokenGate jwtSecret decode now t ≠ abortWith msg := by
  rcases tokenGate_classify jwtSecret decode now t with h | h | ⟨_, _, _, _, _, _, _, _, _, _, h⟩ <;>
    rw [h] <;> intro he
  · have := congrArg MwOut.response he
    simp only [abortWith, Option.some.injEq, Prod.mk.injEq] at this
    exact h1 this.2.symm
  · have := congrArg MwOut.response he
    simp only [abortWith, Option.some.injEq, Prod.mk.injEq] at this
    exact h2 this.2.symm
  · have := congrArg MwOut.nextCalled he
    simp [abortWith] at this

/-- Header-shape failure of the middleware: non-empty header that does not
split into exactly `Bearer` and one token. -/
theorem authMiddleware_not_bearer (jwtSecret : String)
    (decode : String → Option SignedToken) (now : Int)
    (authHeader : String) (hne : authHeader ≠ "")
    (hshape : ∀ t, goSplit authHeader ≠ ["Bearer", t]) :
    authMiddleware jwtSecret decode now authHeader
      = abortWith "invalid authorization header format" := by
  unfold authMiddleware
  rw [if_neg hne]
  split
  · next t heq => exact absurd heq (hshape t)
  · rfl

/-- C7: the middleware fails 401 "authorization header required" exactly
when the `Authorization` header is absent (gin's `GetHeader` renders an
absent header as the empty string), and fails 401 "invalid authorization
header format" exactly when the header is present but `strings.Split` on
spaces does not yield exactly the two parts `Bearer` and a token
(auth_middleware.go lines 39-51). -/
theorem authHeader_format_check (jwtSecret : String)
    (decode : String → Option SignedToken) (now : Int) (authHeader : String) :
    (authMiddleware jwtSecret decode now authHeader
        = abortWith "authorization header required" ↔ authHeader = "") ∧
    (authMiddleware jwtSecret decode now authHeader
        = abortWith "invalid authorization header format" ↔
      authHeader ≠ "" ∧ ∀ t, goSplit authHeader ≠ ["Bearer", t]) := by
  by_cases hA : authHeader = ""
  · have hm : authMiddleware jwtSecret decode now authHeader
        = abortWith "authorization header required" := by
      unfold authMiddleware
      rw [if_pos hA]
    refine ⟨⟨fun _ => hA, fun _ => hm⟩, ⟨fun h => ?_, fun h => absurd hA h.1⟩⟩
    rw [hm] at h
    exact absurd h (by decide)
  · by_cases hB : ∃ t, goSplit authHeader = ["Bearer", t]
    · obtain ⟨t, ht⟩ := hB
      have hm := authMiddleware_bearer jwtSecret decode now authHeader t hA ht
      rw [hm]
      refine ⟨⟨fun h => ?_, fun h => absurd h hA⟩,
        ⟨fun h => ?_, fun h => absurd ht (h.2 t)⟩⟩
      · exact absurd h (tokenGate_ne_abort jwtSecret decode now t _
          (by decide) (by decide))
      · exact absurd h (tokenGate_ne_abort jwtSecret decode now t _
          (by decide) (by decide))
    · push_neg at hB
      have hm := authMiddleware_not_bearer jwtSecret decode now authHeader hA hB
      rw [hm]
      refine ⟨⟨fun h => absurd h.symm (by decide), fun h => absurd h hA⟩,
        ⟨fun _ => ⟨hA, hB⟩, fun _ => rfl⟩⟩

/-- C7 witness: the two failure shapes at concrete headers. -/
theorem authHeader_format_check_witness :
    authMiddleware "secret" (fun _ => none) 0 ""
      = abortWith "authorization header required" ∧
    authMiddleware "secret" (fun _ => none) 0 "Token x"
      = abortWith "invalid authorization header format" :=
  ⟨(authHeader_format_check "secret" (fun _ => none) 0 "").1.mpr rfl,
    (authHeader_format_check "secret" (fun _ => none) 0 "Token x").2.mpr
      ⟨by decide, by
        intro t h
        rw [show goSplit "Token x" = ["Token", "x"] from by decide] at h
        injection h with h1 h2
        exact absurd h1 (by decide)⟩⟩

/-- C8: every serialized form of a User the system produces — the
registration response and the profile response — omits the password hash
field entirely: the serialization of a User per the struct tags carries
exactly the keys `id`, `email`, `full_name`, `created_at`, `updated_at`
(`PasswordHash` has tag `json:"-"`, user.go line 23), and no body either
handler writes ever carries a `password_hash`/`PasswordHash` key. -/
theorem passwordHash_never_serialized (u : User)
    (findByEmail : String → Except StorageError User)
    (create : User → Except StorageError User) (input : RegisterInput)
    (findById : String → Except StorageError User)
    (ctxUserId : Option JsonVal) :
    (userToJson u).map Prod.fst
      = ["id", "email", "full_name", "created_at", "updated_at"] ∧
    ((registerHandler findByEmail create input).body.all
      fun kv => kv.fst != "password_hash" && kv.fst != "PasswordHash") = true ∧
    ((getProfile findById ctxUserId).body.all
      fun kv => kv.fst != "password_hash" && kv.fst != "PasswordHash") = true := by
  refine ⟨rfl, ?_, ?_⟩
  · unfold registerHandler
    cases hr : register findByEmail create input with
    | error msg => rfl
    | ok user => rfl
  · unfold getProfile
    cases ctxUserId with
    | none => rfl
    | some v =>
      cases v with
      | num n => rfl
      | str s =>
        show ((match getUserById findById s with
          | Except.error e =>
            (⟨404, [("error", JsonVal.str e.message)]⟩ : HttpResponse)
          | Except.ok user => ⟨200, userToJson user⟩).body.all
            fun kv => kv.fst != "password_hash" && kv.fst != "PasswordHash") = true
        cases hr : getUserById findById s with
        | error e => rfl
        | ok user => rfl

/-- C9: configuration loading fails whenever the signing secret equals the
shipped placeholder `"your-secret-key"` (which is also the default when
`JWT_SECRET` is unset), and every successfully loaded config has a token
expiry of exactly 24 hours and a secret different from the placeholder
(config.go lines 44-65). -/
theorem loadConfig_placeholder_ttl (env : String → Option String) :
    (getEnv env "JWT_SECRET" "your-secret-key" = "your-secret-key" →
      loadConfig env = .error "jwt secret must be set in environment") ∧
    ∀ cfg, loadConfig env = .ok cfg →
      cfg.tokenExpiryDur = 24 * goHour ∧ cfg.jwtSecret ≠ "your-secret-key" := by
  constructor
  · intro h
    unfold loadConfig
    rw [if_pos h]
  · intro cfg hcfg
    unfold loadConfig at hcfg
    by_cases h : getEnv env "JWT_SECRET" "your-secret-key" = "your-secret-key"
    · rw [if_pos h] at hcfg
      exact absurd hcfg (by simp)
    · rw [if_neg h] at hcfg
      obtain rfl := (Except.ok.injEq _ _).mp hcfg.symm
      exact ⟨rfl, h⟩

/-- C9 witness: the empty environment is rejected; an environment with a
real secret loads a config whose token expiry is 24 hours. -/
theorem loadConfig_placeholder_ttl_witness :
    loadConfig (fun _ => none) = .error "jwt secret must be set in environment" ∧
    (⟨"localhost", "postgres", "", "go_auth_db", "5432", "8080", "s3cret",
        24 * goHour⟩ : Config).tokenExpiryDur = 24 * goHour :=
  ⟨(loadConfig_placeholder_ttl (fun _ => none)).1 rfl,
    ((loadConfig_placeholder_ttl
        (fun k => if k = "JWT_SECRET" then some "s3cret" else none)).2
      ⟨"localhost", "postgres", "", "go_auth_db", "5432", "8080", "s3cret",
        24 * goHour⟩ rfl).1⟩

/-- C10: on every rejection path the middleware responds 401 and attaches
no context key, and the downstream handler runs only when both `user_id`
and `email` have been set to the verified, present, non-empty claim values
of a decoded token that validates (unexpired, signature verifying under the
configured secret) extracted from a well-formed `Bearer` header. -/
theorem authMiddleware_gate (jwtSecret : String)
    (decode : String → Option SignedToken) (now : Int) (authHeader : String) :
    ((authMiddleware jwtSecret decode now authHeader).nextCalled = false →
      (authMiddleware jwtSecret decode now authHeader).ctxKeys = [] ∧
      ∃ msg, (authMiddleware jwtSecret decode now authHeader).response
        = some (statusUnauthorized, msg)) ∧
    ((authMiddleware jwtSecret decode now authHeader).nextCalled = true →
      ∃ tokenString tok uid em,
        goSplit authHeader = ["Bearer", tokenString] ∧
        decode tokenString = some tok ∧
        claimsValid now tok.claims = true ∧
        verifySig tok.alg jwtSecret tok.claims tok.sig = true ∧
        tok.claims.user_id = some uid ∧ tok.claims.email = some em ∧
        ¬ uid = JsonVal.str "" ∧ ¬ em = JsonVal.str "" ∧
        (authMiddleware jwtSecret decode now authHeader).ctxKeys
          = [("user_id", uid), ("email", em)] ∧
        (authMiddleware jwtSecret decode now authHeader).response = none) := by
  by_cases hA : authHeader = ""
  · have hm : authMiddleware jwtSecret decode now authHeader
        = abortWith "authorization header required" := by
      unfold authMiddleware
      rw [if_pos hA]
    rw [hm]
    exact ⟨fun _ => ⟨rfl, "authorization header required", rfl⟩,
      fun h => absurd h (by decide)⟩
  · by_cases hB : ∃ t, goSplit authHeader = ["Bearer", t]
    · obtain ⟨t, ht⟩ := hB
      have hm := authMiddleware_bearer jwtSecret decode now authHeader t hA ht
      rw [hm]
      rcases tokenGate_classify jwtSecret decode now t with h | h |
        ⟨tok, uid, em, hdec, hcv, hvs, huid, hem, hu, he, h⟩ <;> rw [h]
      · exact ⟨fun _ => ⟨rfl, "invalid token", rfl⟩,
          fun hcontra => absurd hcontra (by decide)⟩
      · exact ⟨fun _ => ⟨rfl, "invalid token claims", rfl⟩,
          fun hcontra => absurd hcontra (by decide)⟩
      · exact ⟨fun hcontra => Bool.noConfusion hcontra,
          fun _ => ⟨t, tok, uid, em, ht, hdec, hcv, hvs, huid, hem,
            hu, he, rfl, rfl⟩⟩
    · push_neg at hB
      have hm := authMiddleware_not_bearer jwtSecret decode now authHeader hA hB
      rw [hm]
      exact ⟨fun _ => ⟨rfl, "invalid authorization header format", rfl⟩,
        fun h => absurd h (by decide)⟩

/-- Decoder used to witness the accepting path of the gate invariant:
decodes every string to a fixed valid HS256 token under secret "secret". -/
def rtDecode2 : String → Option SignedToken :=
  fun _ => some (signedString .hs256
    ⟨some (.str "u-2"), some (.str "b@x.com"), some 100⟩ "secret")

/-- C10 witness: a rejected request (missing header) yields a 401 with no
context keys; an accepted request certifies a verified token with the
attached claim values. -/
theorem authMiddleware_gate_witness :
    ((authMiddleware "secret" (fun _ => none) 0 "").ctxKeys = [] ∧
      ∃ msg, (authMiddleware "secret" (fun _ => none) 0 "").response
        = some (statusUnauthorized, msg)) ∧
    ∃ tokenString tok uid em,
      goSplit "Bearer x" = ["Bearer", tokenString] ∧
      rtDecode2 tokenString = some tok ∧
      claimsValid 0 tok.claims = true ∧
      verifySig tok.alg "secret" tok.claims tok.sig = true ∧
      tok.claims.user_id = some uid ∧ tok.claims.email = some em ∧
      ¬ uid = JsonVal.str "" ∧ ¬ em = JsonVal.str "" ∧
      (authMiddleware "secret" rtDecode2 0 "Bearer x").ctxKeys
        = [("user_id", uid), ("email", em)] ∧
      (authMiddleware "secret" rtDecode2 0 "Bearer x").response = none :=
  ⟨(authMiddleware_gate "secret" (fun _ => none) 0 "").1 rfl,
    (authMiddleware_gate "secret" rtDecode2 0 "Bearer x").2 (by decide)⟩

